import Mathlib

/-!
Verification of the Pintos project-2 syscall layer (userprog/syscall.c).

The C file is embedded shallowly.  Each handler becomes a Lean function that
returns a `Res`: a list of observable events (lock operations, calls into the
filesystem subsystem, calls into the per-process file-descriptor service,
console traffic, byte stores, the exit bookkeeping) together with either a
value or a `Fault` recording that control never returns to the handler
(thread termination, machine shutdown, or undefined behaviour from a null
pointer dereference).  External subsystems (process table, filesystem,
console) are abstracted as an environment record `Env`; the handlers are
verified for every environment.
-/

set_option maxHeartbeats 1000000

namespace Syscall

/-- Observable events emitted by the syscall layer: exit-status recording and
the termination notice (from exit), filesystem-lock operations, calls into the
filesystem subsystem, calls into the per-process file-descriptor service,
console device traffic, byte stores into a user buffer, and the wait on the
child load semaphore in exec. -/
inductive Event
  | setExitStatus (s : Int)
  | printNotice (s : Int)
  | lockAcquire
  | lockRelease
  | fsCreate
  | fsRemove
  | fsOpen
  | fsDenyWrite
  | fsRead (buffer : Nat)
  | fsWrite (buffer : Nat)
  | fsSeek (position : Nat)
  | fsTell
  | fsLength
  | fdsGetFile (fd : Int)
  | fdsAddFile
  | fdsCloseFile (fd : Int)
  | consoleGetc
  | consolePutbuf (buffer : Nat) (size : Nat)
  | memStore (addr : Nat) (byte : Nat)
  | semaDownLoad
  deriving DecidableEq

/-- Ways a handler fails to return to its caller: thread_exit terminates the
calling thread, shutdown_power_off stops the machine, and dereferencing a
null pointer is undefined behaviour. -/
inductive Fault
  | threadExit
  | shutdown
  | nullDeref
  deriving DecidableEq

deriving instance DecidableEq for Except

/-- Result of running a piece of the syscall layer: the trace of events it
emitted, and either a return value or the fault that ended the thread. -/
structure Res (α : Type) where
  trace : List Event
  out : Except Fault α
  deriving DecidableEq

instance : Monad Res where
  pure a := ⟨[], Except.ok a⟩
  bind r f :=
    match r.out with
    | Except.error e => ⟨r.trace, Except.error e⟩
    | Except.ok a => ⟨r.trace ++ (f a).trace, (f a).out⟩

/-- Emit one event and continue. -/
def emit (e : Event) : Res Unit := ⟨[e], Except.ok ()⟩

@[simp] theorem pure_def {α : Type} (a : α) : (pure a : Res α) = ⟨[], Except.ok a⟩ := rfl

@[simp] theorem bind_ok {α β : Type} (tr : List Event) (a : α) (f : α → Res β) :
    (Res.mk tr (Except.ok a) >>= f) = ⟨tr ++ (f a).trace, (f a).out⟩ := rfl

@[simp] theorem bind_err {α β : Type} (tr : List Event) (e : Fault) (f : α → Res β) :
    (Res.mk tr (Except.error e) >>= f) = ⟨tr, Except.error e⟩ := rfl

@[simp] theorem emit_def (e : Event) : emit e = ⟨[e], Except.ok ()⟩ := rfl

/-- Lower bound of the user address range (0x08048000). -/
def USER_BASE : Nat := 0x8048000

/-- Upper bound (exclusive) of the user address range (0xC0000000). -/
def KERNEL_BASE : Nat := 0xc0000000

/-- The acceptance region of the address validator. -/
def validAddr (a : Nat) : Prop := USER_BASE ≤ a ∧ a < KERNEL_BASE

instance (a : Nat) : Decidable (validAddr a) :=
  inferInstanceAs (Decidable (USER_BASE ≤ a ∧ a < KERNEL_BASE))

/-- Reinterpret a 32-bit word as a signed int (two's complement). -/
def toInt32 (w : Nat) : Int :=
  if w % 4294967296 < 2147483648 then ((w % 4294967296 : Nat) : Int)
  else ((w % 4294967296 : Nat) : Int) - 4294967296

/-- C int value of a C bool result, as written into the eax slot. -/
def boolToInt (b : Bool) : Int := if b then 1 else 0

/-- thread_exit: terminates the calling thread; control never returns. -/
def thread_exit {α : Type} : Res α := ⟨[], Except.error Fault.threadExit⟩

/-- exit (syscall.c lines 162 to 171): records the exit status in the current
thread record, prints the termination notice, then calls thread_exit. -/
def exit {α : Type} (status : Int) : Res α :=
  ⟨[Event.setExitStatus status, Event.printNotice status], Except.error Fault.threadExit⟩

/-- halt (syscall.c lines 155 to 159): shutdown_power_off, never returns. -/
def halt {α : Type} : Res α := ⟨[], Except.error Fault.shutdown⟩

/-- check_address (syscall.c lines 133 to 139): if the pointer is below
0x8048000 or at or above 0xc0000000, exit the process with status -1. -/
def check_address (addr : Nat) : Res Unit :=
  if addr < USER_BASE ∨ KERNEL_BASE ≤ addr then exit (-1) else pure ()

/-- An open file handle; opaque to the syscall layer. -/
structure FileHandle where
  id : Nat
  deriving DecidableEq

/-- The child process record fields read by exec: the load success flag.  The
load semaphore is modelled by `semaDownLoad` below. -/
structure Child where
  is_load : Bool
  deriving DecidableEq

/-- External collaborators of syscall.c, abstracted as pure oracles: the
per-process file-descriptor service (process_get_file, process_add_file), the
filesystem subsystem (filesys_open, filesys_create, filesys_remove and the
byte counts returned by file_read, file_write, file_length, file_tell), the
console input stream, the current thread name, and the process subsystem
(process_execute, get_child_process, process_wait).  `str_at` gives the
string stored at a nonzero user address.  `process_add_file` is modelled from
the spec: the File-Descriptor Service allocates a small descriptor from a
64-entry table and yields the sentinel 64 when the table is exhausted. -/
structure Env where
  process_get_file : Int → Option FileHandle
  process_add_file : FileHandle → Nat
  filesys_open : String → Option FileHandle
  filesys_create : String → Nat → Bool
  filesys_remove : String → Bool
  file_read_count : FileHandle → Nat → Int
  file_write_count : FileHandle → Nat → Int
  file_length_val : FileHandle → Int
  file_tell_val : FileHandle → Int
  input_byte : Nat → Nat
  cur_name : String
  process_execute : String → Int
  get_child_process : Int → Option Child
  process_wait : Int → Int
  str_at : Nat → String

/-- Reading the C string argument at address `a`: the null pointer carries no
string, any other address yields the string stored there. -/
def ptrToStr (env : Env) (a : Nat) : Option String :=
  if a = 0 then none else some (env.str_at a)

/-- The loop body of get_argument (syscall.c lines 142 to 152): for each slot,
check_address on esp + 4 + 4 * i, then read the 32-bit word there.  `i` is the
current loop index and the second argument counts the remaining slots. -/
def getArgLoop (mem : Nat → Nat) (esp : Nat) : Nat → Nat → Res (List Nat)
  | _, 0 => pure []
  | i, Nat.succ k => do
    check_address (esp + 4 + 4 * i)
    let a := mem (esp + 4 + 4 * i)
    let rest ← getArgLoop mem esp (i + 1) k
    pure (a :: rest)

/-- get_argument (syscall.c lines 142 to 152). -/
def get_argument (mem : Nat → Nat) (esp : Nat) (count : Nat) : Res (List Nat) :=
  getArgLoop mem esp 0 count

/-- create (syscall.c lines 174 to 181): null name yields false, otherwise
delegate to filesys_create.  No lock operation appears in the source. -/
def create (env : Env) (file : Option String) (initial_size : Nat) : Res Bool :=
  match file with
  | none => pure false
  | some name => do
    emit Event.fsCreate
    pure (env.filesys_create name initial_size)

/-- remove (syscall.c lines 184 to 191): null name yields false, otherwise
delegate to filesys_remove.  No lock operation appears in the source. -/
def remove (env : Env) (file : Option String) : Res Bool :=
  match file with
  | none => pure false
  | some name => do
    emit Event.fsRemove
    pure (env.filesys_remove name)

/-- sema_down on the load member of a child record pointer (syscall.c line
207): the expression cp->load dereferences cp, so a null record is a null
pointer dereference; otherwise the parent blocks on the load semaphore. -/
def semaDownLoad (cp : Option Child) : Res Unit :=
  match cp with
  | none => ⟨[], Except.error Fault.nullDeref⟩
  | some _ => ⟨[Event.semaDownLoad], Except.ok ()⟩

/-- exec (syscall.c lines 196 to 219): process_execute, get_child_process,
sema_down on the child load semaphore, then the null check and the load flag
check, returning -1 on failure and the child tid on success. -/
def exec (env : Env) (cmd_line : String) : Res Int := do
  let tid := env.process_execute cmd_line
  let cp := env.get_child_process tid
  semaDownLoad cp
  match cp with
  | none => pure (-1)
  | some c => if c.is_load = false then pure (-1) else pure tid

/-- wait (syscall.c lines 222 to 226): pass through to process_wait. -/
def wait (env : Env) (tid : Int) : Res Int := pure (env.process_wait tid)

/-- open (syscall.c lines 229 to 265): null name yields -1; otherwise acquire
the filesystem lock, filesys_open, release and yield -1 on a null handle,
deny write when the name equals the current thread name, process_add_file,
release the lock, and yield -1 on the table-full sentinel 64, else the
descriptor. -/
def «open» (env : Env) (file : Option String) : Res Int :=
  match file with
  | none => pure (-1)
  | some name => do
    emit Event.lockAcquire
    emit Event.fsOpen
    match env.filesys_open name with
    | none => do
      emit Event.lockRelease
      pure (-1)
    | some f => do
      if name = env.cur_name then emit Event.fsDenyWrite else pure ()
      emit Event.fdsAddFile
      let results := env.process_add_file f
      emit Event.lockRelease
      if results = 64 then pure (-1) else pure (results : Int)

/-- filesize (syscall.c lines 269 to 283): look the descriptor up, -1 when
absent, else file_length.  No lock operation appears in the source. -/
def filesize (env : Env) (fd : Int) : Res Int := do
  emit (Event.fdsGetFile fd)
  match env.process_get_file fd with
  | none => pure (-1)
  | some f => do
    emit Event.fsLength
    pure (env.file_length_val f)

/-- The fd 0 loop of read (syscall.c lines 301 to 305): one input_getc per
byte, stored at buffer + i.  The second argument counts remaining bytes. -/
def readStdinLoop (env : Env) (buffer : Nat) : Nat → Nat → Res Unit
  | _, 0 => pure ()
  | i, Nat.succ k => do
    emit Event.consoleGetc
    emit (Event.memStore (buffer + i) (env.input_byte i))
    readStdinLoop env buffer (i + 1) k

/-- read (syscall.c lines 286 to 327): acquire the lock, look the descriptor
up; fd 0 reads size console bytes into the buffer and yields size; otherwise
a missing handle yields -1 and a present handle delegates to file_read; the
lock is released on each path. -/
def read (env : Env) (fd : Int) (buffer : Nat) (size : Nat) : Res Int := do
  emit Event.lockAcquire
  emit (Event.fdsGetFile fd)
  let f := env.process_get_file fd
  if fd = 0 then do
    readStdinLoop env buffer 0 size
    emit Event.lockRelease
    pure (size : Int)
  else
    match f with
    | none => do
      emit Event.lockRelease
      pure (-1)
    | some h => do
      emit (Event.fsRead buffer)
      let sizes := env.file_read_count h size
      emit Event.lockRelease
      pure sizes

/-- write (syscall.c lines 330 to 368): acquire the lock, look the descriptor
up; fd 1 putbufs the buffer and yields size; otherwise a missing handle
yields -1 and a present handle delegates to file_write; the lock is released
on each path. -/
def write (env : Env) (fd : Int) (buffer : Nat) (size : Nat) : Res Int := do
  emit Event.lockAcquire
  emit (Event.fdsGetFile fd)
  let f := env.process_get_file fd
  if fd = 1 then do
    emit (Event.consolePutbuf buffer size)
    emit Event.lockRelease
    pure (size : Int)
  else
    match f with
    | none => do
      emit Event.lockRelease
      pure (-1)
    | some h => do
      emit (Event.fsWrite buffer)
      let sizes := env.file_write_count h size
      emit Event.lockRelease
      pure sizes

/-- file_seek applied to the looked-up handle (filesys/file.c, outside this
repository).  Modelled from the spec: the filesystem primitive seek(handle,
position) operates on a real open-file handle, and the reference
implementation dereferences its file argument, so passing the absent (null)
handle is a null pointer dereference. -/
def file_seek (f : Option FileHandle) (position : Nat) : Res Unit :=
  match f with
  | none => ⟨[], Except.error Fault.nullDeref⟩
  | some _ => ⟨[Event.fsSeek position], Except.ok ()⟩

/-- file_tell applied to the looked-up handle (filesys/file.c, outside this
repository).  Modelled from the spec: the filesystem primitive tell(handle)
operates on a real open-file handle and dereferences it, so passing the
absent (null) handle is a null pointer dereference. -/
def file_tell (env : Env) (f : Option FileHandle) : Res Int :=
  match f with
  | none => ⟨[], Except.error Fault.nullDeref⟩
  | some h => ⟨[Event.fsTell], Except.ok (env.file_tell_val h)⟩

/-- seek (syscall.c lines 371 to 381): look the descriptor up and call
file_seek on the result, with no null check. -/
def seek (env : Env) (fd : Int) (position : Nat) : Res Unit := do
  emit (Event.fdsGetFile fd)
  file_seek (env.process_get_file fd) position

/-- tell (syscall.c lines 384 to 394): look the descriptor up and call
file_tell on the result, with no null check. -/
def tell (env : Env) (fd : Int) : Res Int := do
  emit (Event.fdsGetFile fd)
  file_tell env (env.process_get_file fd)

/-- close (syscall.c lines 397 to 401): pass through to process_close_file.
Modelled from the spec: close_file(descriptor) is per-process descriptor
bookkeeping and completes also for a descriptor that is not in the table. -/
def close (fd : Int) : Res Unit := emit (Event.fdsCloseFile fd)

/-- Syscall numbers, in the order of the syscall-nr.h enumeration. -/
def SYS_HALT : Nat := 0
def SYS_EXIT : Nat := 1
def SYS_EXEC : Nat := 2
def SYS_WAIT : Nat := 3
def SYS_CREATE : Nat := 4
def SYS_REMOVE : Nat := 5
def SYS_OPEN : Nat := 6
def SYS_FILESIZE : Nat := 7
def SYS_READ : Nat := 8
def SYS_WRITE : Nat := 9
def SYS_SEEK : Nat := 10
def SYS_TELL : Nat := 11
def SYS_CLOSE : Nat := 12

/-- The syscall numbers with a case in the dispatch switch. -/
def recognized : List Nat :=
  [SYS_HALT, SYS_EXIT, SYS_EXEC, SYS_WAIT, SYS_CREATE, SYS_REMOVE, SYS_OPEN,
   SYS_FILESIZE, SYS_READ, SYS_WRITE, SYS_SEEK, SYS_TELL, SYS_CLOSE]

/-- syscall_handler (syscall.c lines 40 to 130): check_address on the stack
pointer, read the syscall number, then dispatch.  The result value is the
word written to the eax slot of the trap frame, or none for the cases that
write no result. -/
def syscall_handler (env : Env) (mem : Nat → Nat) (esp : Nat) : Res (Option Int) := do
  check_address esp
  let syscall_number := mem esp
  if syscall_number = SYS_HALT then
    halt
  else if syscall_number = SYS_EXIT then do
    let arg ← get_argument mem esp 1
    exit (toInt32 (arg.getD 0 0))
  else if syscall_number = SYS_EXEC then do
    let arg ← get_argument mem esp 1
    check_address (arg.getD 0 0)
    let r ← exec env (env.str_at (arg.getD 0 0))
    pure (some r)
  else if syscall_number = SYS_WAIT then do
    let arg ← get_argument mem esp 1
    let r ← wait env (toInt32 (arg.getD 0 0))
    pure (some r)
  else if syscall_number = SYS_CREATE then do
    let arg ← get_argument mem esp 2
    check_address (arg.getD 0 0)
    let r ← create env (ptrToStr env (arg.getD 0 0)) (arg.getD 1 0)
    pure (some (boolToInt r))
  else if syscall_number = SYS_REMOVE then do
    let arg ← get_argument mem esp 1
    check_address (arg.getD 0 0)
    let r ← remove env (ptrToStr env (arg.getD 0 0))
    pure (some (boolToInt r))
  else if syscall_number = SYS_OPEN then do
    let arg ← get_argument mem esp 1
    check_address (arg.getD 0 0)
    let r ← «open» env (ptrToStr env (arg.getD 0 0))
    pure (some r)
  else if syscall_number = SYS_FILESIZE then do
    let arg ← get_argument mem esp 1
    let r ← filesize env (toInt32 (arg.getD 0 0))
    pure (some r)
  else if syscall_number = SYS_READ then do
    let arg ← get_argument mem esp 3
    check_address (arg.getD 1 0)
    let r ← read env (toInt32 (arg.getD 0 0)) (arg.getD 1 0) (arg.getD 2 0)
    pure (some r)
  else if syscall_number = SYS_WRITE then do
    let arg ← get_argument mem esp 3
    check_address (arg.getD 1 0)
    let r ← write env (toInt32 (arg.getD 0 0)) (arg.getD 1 0) (arg.getD 2 0)
    pure (some r)
  else if syscall_number = SYS_SEEK then do
    let arg ← get_argument mem esp 2
    seek env (toInt32 (arg.getD 0 0)) (arg.getD 1 0)
    pure none
  else if syscall_number = SYS_TELL then do
    let arg ← get_argument mem esp 1
    let r ← tell env (toInt32 (arg.getD 0 0))
    pure (some r)
  else if syscall_number = SYS_CLOSE then do
    let arg ← get_argument mem esp 1
    close (toInt32 (arg.getD 0 0))
    pure none
  else
    thread_exit

/-- A concrete default environment for counterexamples and witnesses. -/
def envD : Env where
  process_get_file := fun _ => none
  process_add_file := fun _ => 0
  filesys_open := fun _ => none
  filesys_create := fun _ _ => true
  filesys_remove := fun _ => true
  file_read_count := fun _ _ => 0
  file_write_count := fun _ _ => 0
  file_length_val := fun _ => 0
  file_tell_val := fun _ => 0
  input_byte := fun _ => 0
  cur_name := "main"
  process_execute := fun _ => 1
  get_child_process := fun _ => none
  process_wait := fun _ => 0
  str_at := fun _ => ""

/-- Effect of one event on the held state of the filesystem lock. -/
def lockStep (held : Bool) (e : Event) : Bool :=
  match e with
  | Event.lockAcquire => true
  | Event.lockRelease => false
  | _ => held

/-- The filesystem-mutating calls named by the exclusion invariant:
filesys_create, filesys_remove, filesys_open, file_read, file_write. -/
def isFsCall : Event → Bool
  | Event.fsCreate => true
  | Event.fsRemove => true
  | Event.fsOpen => true
  | Event.fsRead _ => true
  | Event.fsWrite _ => true
  | _ => false

/-- Every call into the filesystem subsystem. -/
def isFsAccess : Event → Bool
  | Event.fsCreate => true
  | Event.fsRemove => true
  | Event.fsOpen => true
  | Event.fsDenyWrite => true
  | Event.fsRead _ => true
  | Event.fsWrite _ => true
  | Event.fsSeek _ => true
  | Event.fsTell => true
  | Event.fsLength => true
  | _ => false

/-- Starting from the given lock state, every event selected by fsSet occurs
while the lock is held. -/
def lockedOk (fsSet : Event → Bool) : Bool → List Event → Bool
  | _, [] => true
  | held, e :: es => (!fsSet e || held) && lockedOk fsSet (lockStep held e) es

/-- Lock state left after the trace. -/
def finalLock : Bool → List Event → Bool
  | held, [] => held
  | held, e :: es => finalLock (lockStep held e) es

/-- The handler returned normally to its caller. -/
def returnsOk {α : Type} (r : Res α) : Bool :=
  match r.out with
  | Except.ok _ => true
  | Except.error _ => false

theorem lockedOk_mono (f g : Event → Bool) (h : ∀ e, f e = true → g e = true) :
    ∀ (l : List Event) (held : Bool), lockedOk g held l = true → lockedOk f held l = true := by
  intro l
  induction l with
  | nil => intro held _; rfl
  | cons e es ih =>
    intro held hg
    simp only [lockedOk, Bool.and_eq_true, Bool.or_eq_true, Bool.not_eq_true'] at hg ⊢
    refine ⟨?_, ih _ hg.2⟩
    rcases hg.1 with hge | hh
    · cases hfe : f e with
      | false => exact Or.inl rfl
      | true => rw [h e hfe] at hge; exact absurd hge (by simp)
    · exact Or.inr hh

theorem check_address_ok (a : Nat) (h : validAddr a) :
    check_address a = ⟨[], Except.ok ()⟩ := by
  have hc : ¬ (a < USER_BASE ∨ KERNEL_BASE ≤ a) := by
    simp only [validAddr] at h
    omega
  simp [check_address, hc]

theorem check_address_bad (a : Nat) (h : ¬ validAddr a) :
    check_address a
      = ⟨[Event.setExitStatus (-1), Event.printNotice (-1)], Except.error Fault.threadExit⟩ := by
  have hc : a < USER_BASE ∨ KERNEL_BASE ≤ a := by
    simp only [validAddr] at h
    omega
  simp [check_address, hc, exit]

theorem getArgLoop_ok (mem : Nat → Nat) (esp : Nat) :
    ∀ (k i : Nat), (∀ j, j < k → validAddr (esp + 4 + 4 * (i + j))) →
    getArgLoop mem esp i k
      = ⟨[], Except.ok ((List.range k).map fun j => mem (esp + 4 + 4 * (i + j)))⟩ := by
  intro k
  induction k with
  | zero => intro i _; simp [getArgLoop]
  | succ k ih =>
    intro i h
    have h0 : validAddr (esp + 4 + 4 * i) := by
      have := h 0 (Nat.succ_pos k)
      simpa using this
    have hrest : ∀ j, j < k → validAddr (esp + 4 + 4 * ((i + 1) + j)) := by
      intro j hj
      have := h (j + 1) (by omega)
      have e : i + (j + 1) = (i + 1) + j := by omega
      rwa [e] at this
    have step : getArgLoop mem esp i (k + 1)
        = ⟨[], Except.ok (mem (esp + 4 + 4 * i)
            :: ((List.range k).map fun j => mem (esp + 4 + 4 * ((i + 1) + j))))⟩ := by
      simp [getArgLoop, check_address_ok _ h0, ih (i + 1) hrest]
    have hl : (List.range (k + 1)).map (fun j => mem (esp + 4 + 4 * (i + j)))
        = mem (esp + 4 + 4 * i)
          :: ((List.range k).map fun j => mem (esp + 4 + 4 * ((i + 1) + j))) := by
      simp only [List.range_succ_eq_map, List.map_cons, List.map_map, Function.comp,
        Nat.add_zero]
      refine congrArg₂ List.cons rfl ?_
      refine List.map_congr_left ?_
      intro a _
      simp only [Function.comp_apply, Nat.succ_eq_add_one]
      have e : i + (a + 1) = (i + 1) + a := by omega
      rw [e]
    rw [step, hl]

theorem getArgLoop_fail (mem : Nat → Nat) (esp : Nat) :
    ∀ (t k i : Nat), t < k → ¬ validAddr (esp + 4 + 4 * (i + t)) →
    (∀ j, j < t → validAddr (esp + 4 + 4 * (i + j))) →
    getArgLoop mem esp i k
      = ⟨[Event.setExitStatus (-1), Event.printNotice (-1)], Except.error Fault.threadExit⟩ := by
  intro t
  induction t with
  | zero =>
    intro k i hk hbad _
    obtain ⟨k', rfl⟩ : ∃ k', k = k' + 1 := ⟨k - 1, by omega⟩
    have hb : ¬ validAddr (esp + 4 + 4 * i) := by simpa using hbad
    simp [getArgLoop, check_address_bad _ hb]
  | succ t ih =>
    intro k i hk hbad hpre
    obtain ⟨k', rfl⟩ : ∃ k', k = k' + 1 := ⟨k - 1, by omega⟩
    have h0 : validAddr (esp + 4 + 4 * i) := by
      have := hpre 0 (Nat.succ_pos t)
      simpa using this
    have hbad' : ¬ validAddr (esp + 4 + 4 * ((i + 1) + t)) := by
      have e : (i + 1) + t = i + (t + 1) := by omega
      rwa [e]
    have hpre' : ∀ j, j < t → validAddr (esp + 4 + 4 * ((i + 1) + j)) := by
      intro j hj
      have := hpre (j + 1) (by omega)
      have e : i + (j + 1) = (i + 1) + j := by omega
      rwa [e] at this
    simp [getArgLoop, check_address_ok _ h0, ih k' (i + 1) (by omega) hbad' hpre']

theorem get_argument_one (mem : Nat → Nat) (esp : Nat) (h1 : validAddr (esp + 4)) :
    get_argument mem esp 1 = ⟨[], Except.ok [mem (esp + 4)]⟩ := by
  have e1 : esp + 4 + 4 * 0 = esp + 4 := by omega
  simp [get_argument, getArgLoop, e1, check_address_ok _ h1]

theorem get_argument_two (mem : Nat → Nat) (esp : Nat)
    (h1 : validAddr (esp + 4)) (h2 : validAddr (esp + 8)) :
    get_argument mem esp 2 = ⟨[], Except.ok [mem (esp + 4), mem (esp + 8)]⟩ := by
  have e1 : esp + 4 + 4 * 0 = esp + 4 := by omega
  have e2 : esp + 4 + 4 * (0 + 1) = esp + 8 := by omega
  simp [get_argument, getArgLoop, e1, e2, check_address_ok _ h1, check_address_ok _ h2]

theorem get_argument_three (mem : Nat → Nat) (esp : Nat)
    (h1 : validAddr (esp + 4)) (h2 : validAddr (esp + 8)) (h3 : validAddr (esp + 12)) :
    get_argument mem esp 3
      = ⟨[], Except.ok [mem (esp + 4), mem (esp + 8), mem (esp + 12)]⟩ := by
  have e1 : esp + 4 + 4 * 0 = esp + 4 := by omega
  have e2 : esp + 4 + 4 * (0 + 1) = esp + 8 := by omega
  have e3 : esp + 4 + 4 * (0 + 1 + 1) = esp + 12 := by omega
  simp [get_argument, getArgLoop, e1, e2, e3,
    check_address_ok _ h1, check_address_ok _ h2, check_address_ok _ h3]

theorem readStdinLoop_eq (env : Env) (buffer : Nat) :
    ∀ (k i : Nat), readStdinLoop env buffer i k
      = ⟨(List.range k).flatMap fun j =>
            [Event.consoleGetc, Event.memStore (buffer + (i + j)) (env.input_byte (i + j))],
         Except.ok ()⟩ := by
  intro k
  induction k with
  | zero => intro i; simp [readStdinLoop]
  | succ k ih =>
    intro i
    have hfg : (fun a => [Event.consoleGetc,
          Event.memStore (buffer + (i + (a + 1))) (env.input_byte (i + (a + 1)))])
        = fun a => [Event.consoleGetc,
            Event.memStore (buffer + ((i + 1) + a)) (env.input_byte ((i + 1) + a))] := by
      funext a
      have e : i + (a + 1) = (i + 1) + a := by omega
      rw [e]
    have hl : ((List.range (k + 1)).flatMap fun j =>
          [Event.consoleGetc, Event.memStore (buffer + (i + j)) (env.input_byte (i + j))])
        = Event.consoleGetc :: Event.memStore (buffer + i) (env.input_byte i)
            :: ((List.range k).flatMap fun j =>
                 [Event.consoleGetc,
                  Event.memStore (buffer + ((i + 1) + j)) (env.input_byte ((i + 1) + j))]) := by
      rw [List.range_succ_eq_map, List.flatMap_cons, List.flatMap_map]
      simp only [Nat.succ_eq_add_one, Nat.add_zero, hfg]
      rfl
    calc readStdinLoop env buffer i (k + 1)
        = ⟨Event.consoleGetc :: Event.memStore (buffer + i) (env.input_byte i)
            :: ((List.range k).flatMap fun j =>
                 [Event.consoleGetc,
                  Event.memStore (buffer + ((i + 1) + j)) (env.input_byte ((i + 1) + j))]),
           Except.ok ()⟩ := by
          simp [readStdinLoop, ih (i + 1)]
      _ = _ := by rw [hl]

theorem open_wellLocked (env : Env) (file : Option String) :
    lockedOk isFsAccess false ((«open» env file).trace) = true
    ∧ finalLock false ((«open» env file).trace) = false
    ∧ returnsOk («open» env file) = true := by
  match file with
  | none => simp [«open», lockedOk, finalLock, returnsOk]
  | some name =>
    cases hfo : env.filesys_open name with
    | none =>
      simp [«open», hfo, lockedOk, finalLock, lockStep, isFsAccess, returnsOk]
    | some f =>
      by_cases hn : name = env.cur_name
      · subst hn
        by_cases h64 : env.process_add_file f = 64 <;>
          simp [«open», hfo, h64, lockedOk, finalLock, lockStep, isFsAccess, returnsOk]
      · by_cases h64 : env.process_add_file f = 64 <;>
          simp [«open», hfo, hn, h64, lockedOk, finalLock, lockStep, isFsAccess, returnsOk]

theorem stdinTrace_lockedOk (env : Env) (buffer : Nat) (fsSet : Event → Bool)
    (hg : fsSet Event.consoleGetc = false)
    (hs : ∀ a b, fsSet (Event.memStore a b) = false) :
    ∀ (k : Nat) (held : Bool) (rest : List Event),
      lockedOk fsSet held
        (((List.range k).flatMap fun j =>
            [Event.consoleGetc, Event.memStore (buffer + j) (env.input_byte j)]) ++ rest)
        = lockedOk fsSet held rest := by
  intro k
  induction k with
  | zero => intro held rest; simp
  | succ k ih =>
    intro held rest
    rw [List.range_succ, List.flatMap_append, List.append_assoc, ih]
    simp [lockedOk, lockStep, hg, hs]

theorem stdinTrace_finalLock (env : Env) (buffer : Nat) :
    ∀ (k : Nat) (held : Bool) (rest : List Event),
      finalLock held
        (((List.range k).flatMap fun j =>
            [Event.consoleGetc, Event.memStore (buffer + j) (env.input_byte j)]) ++ rest)
        = finalLock held rest := by
  intro k
  induction k with
  | zero => intro held rest; simp
  | succ k ih =>
    intro held rest
    rw [List.range_succ, List.flatMap_append, List.append_assoc, ih]
    simp [finalLock, lockStep]

theorem read_zero_eq (env : Env) (buffer size : Nat) :
    read env 0 buffer size
      = ⟨Event.lockAcquire :: Event.fdsGetFile 0 ::
          (((List.range size).flatMap fun j =>
              [Event.consoleGetc, Event.memStore (buffer + j) (env.input_byte j)])
            ++ [Event.lockRelease]),
         Except.ok (size : Int)⟩ := by
  simp [read, readStdinLoop_eq env buffer size 0]

theorem read_wellLocked (env : Env) (fd : Int) (buffer size : Nat) :
    lockedOk isFsAccess false ((read env fd buffer size).trace) = true
    ∧ finalLock false ((read env fd buffer size).trace) = false
    ∧ returnsOk (read env fd buffer size) = true := by
  by_cases h0 : fd = 0
  · subst h0
    rw [read_zero_eq]
    simp [lockedOk, lockStep, isFsAccess, finalLock, returnsOk,
      stdinTrace_lockedOk env buffer isFsAccess rfl (fun _ _ => rfl),
      stdinTrace_finalLock env buffer]
  · cases hf : env.process_get_file fd with
    | none => simp [read, h0, hf, lockedOk, lockStep, isFsAccess, finalLock, returnsOk]
    | some h => simp [read, h0, hf, lockedOk, lockStep, isFsAccess, finalLock, returnsOk]

theorem write_wellLocked (env : Env) (fd : Int) (buffer size : Nat) :
    lockedOk isFsAccess false ((write env fd buffer size).trace) = true
    ∧ finalLock false ((write env fd buffer size).trace) = false
    ∧ returnsOk (write env fd buffer size) = true := by
  by_cases h1 : fd = 1
  · subst h1
    simp [write, lockedOk, lockStep, isFsAccess, finalLock, returnsOk]
  · cases hf : env.process_get_file fd with
    | none => simp [write, h1, hf, lockedOk, lockStep, isFsAccess, finalLock, returnsOk]
    | some h => simp [write, h1, hf, lockedOk, lockStep, isFsAccess, finalLock, returnsOk]

theorem isFsCall_le_isFsAccess : ∀ e : Event, isFsCall e = true → isFsAccess e = true := by
  intro e he
  cases e <;> simp_all [isFsCall, isFsAccess]

/-- C1: the address validator accepts a pointer exactly when it lies in
[USER_BASE, KERNEL_BASE) with USER_BASE = 0x08048000 and KERNEL_BASE =
0xC0000000; every pointer outside that range (the null pointer included) is
rejected by terminating the calling process with exit status -1, recording
the status and emitting the notice, and control never returns to the
handler. -/
theorem check_address_spec (a : Nat) :
    USER_BASE = 0x08048000
    ∧ KERNEL_BASE = 0xC0000000
    ∧ (check_address a = ⟨[], Except.ok ()⟩ ↔ (USER_BASE ≤ a ∧ a < KERNEL_BASE))
    ∧ (check_address a
        = ⟨[Event.setExitStatus (-1), Event.printNotice (-1)], Except.error Fault.threadExit⟩
       ↔ (a < USER_BASE ∨ KERNEL_BASE ≤ a)) := by
  refine ⟨rfl, rfl, ?_, ?_⟩
  · by_cases hv : validAddr a
    · have hv' : USER_BASE ≤ a ∧ a < KERNEL_BASE := hv
      simp [check_address_ok a hv, hv']
    · have hv' : ¬ (USER_BASE ≤ a ∧ a < KERNEL_BASE) := hv
      simp [check_address_bad a hv, hv']
  · by_cases hv : validAddr a
    · have hv' : USER_BASE ≤ a ∧ a < KERNEL_BASE := hv
      have : ¬ (a < USER_BASE ∨ KERNEL_BASE ≤ a) := by omega
      simp [check_address_ok a hv, this]
    · have hv' : ¬ (USER_BASE ≤ a ∧ a < KERNEL_BASE) := hv
      have : a < USER_BASE ∨ KERNEL_BASE ≤ a := by omega
      simp [check_address_bad a hv, this]

/-- Witness for C1: the validator accepts 0x08048000 and rejects the null
pointer by exiting with status -1. -/
theorem check_address_spec_witness :
    check_address 0x08048000 = ⟨[], Except.ok ()⟩
    ∧ check_address 0
        = ⟨[Event.setExitStatus (-1), Event.printNotice (-1)], Except.error Fault.threadExit⟩ := by
  constructor
  · exact (check_address_spec 0x08048000).2.2.1.mpr (by decide)
  · exact (check_address_spec 0).2.2.2.mpr (by decide)

/-- C2: for a required argument count n with n at most 3, the argument
marshaler yields exactly the n words at esp + 4 + 4 * i for i below n when
all those slot addresses validate; if slot i is the first slot that fails
validation, the marshaler terminates the process with exit status -1, and
its result does not depend on the memory contents at slot i or at any later
slot (it agrees for any memory that matches on the slots before i). -/
theorem get_argument_spec (mem : Nat → Nat) (esp n : Nat) (hn : n ≤ 3) :
    ((∀ i, i < n → validAddr (esp + 4 + 4 * i)) →
        get_argument mem esp n
          = ⟨[], Except.ok ((List.range n).map fun i => mem (esp + 4 + 4 * i))⟩)
    ∧ (∀ i, i < n → ¬ validAddr (esp + 4 + 4 * i) →
        (∀ j, j < i → validAddr (esp + 4 + 4 * j)) →
        (get_argument mem esp n
            = ⟨[Event.setExitStatus (-1), Event.printNotice (-1)],
               Except.error Fault.threadExit⟩
          ∧ ∀ mem' : Nat → Nat,
              (∀ j, j < i → mem' (esp + 4 + 4 * j) = mem (esp + 4 + 4 * j)) →
              get_argument mem' esp n = get_argument mem esp n)) := by
  constructor
  · intro h
    have := getArgLoop_ok mem esp n 0 (by intro j hj; simpa using h j hj)
    simpa [get_argument] using this
  · intro i hi hbad hpre
    have hfail := getArgLoop_fail mem esp i n 0 hi (by simpa using hbad)
      (by intro j hj; simpa using hpre j hj)
    constructor
    · simpa [get_argument] using hfail
    · intro mem' hagree
      have hfail' := getArgLoop_fail mem' esp i n 0 hi (by simpa using hbad)
        (by intro j hj; simpa using hpre j hj)
      unfold get_argument
      rw [hfail, hfail']

/-- Witness for C2: with two valid slots above esp = 0x08048000 the marshaler
returns the two stack words; with esp = 0xC0000000 - 8 the second slot fails
validation and the marshaler exits with status -1. -/
theorem get_argument_spec_witness :
    get_argument (fun a => a + 1) 0x08048000 2
      = ⟨[], Except.ok [0x08048005, 0x08048009]⟩
    ∧ get_argument (fun a => a + 1) 0xBFFFFFF8 2
      = ⟨[Event.setExitStatus (-1), Event.printNotice (-1)],
         Except.error Fault.threadExit⟩ := by
  constructor
  · have h := (get_argument_spec (fun a => a + 1) 0x08048000 2 (by decide)).1
      (by decide)
    rw [h]
    decide
  · have h := ((get_argument_spec (fun a => a + 1) 0xBFFFFFF8 2 (by decide)).2 1
      (by decide) (by decide) (by decide)).1
    exact h

/-- C3 (code bug): when get_child_process yields no record, exec reaches
sema_down on the null record and dereferences it (undefined behaviour)
before its null check; it does not return -1. -/
theorem exec_null_record_deref :
    exec envD "child" = ⟨[], Except.error Fault.nullDeref⟩
    ∧ (exec envD "child").out ≠ Except.ok (-1) := by
  constructor
  · rfl
  · decide

/-- Counterexample to C4 as stated: the create handler performs its
filesys_create call with the filesystem lock not held. -/
theorem create_unlocked_counterexample :
    (create envD (some "a") 0).trace = [Event.fsCreate]
    ∧ lockedOk isFsCall false ((create envD (some "a") 0).trace) = false := by
  constructor
  · rfl
  · rfl

/-- C4 amended: open, read and write perform their filesystem calls only
while holding the Filesystem Exclusion Lock, but create and remove call
filesys_create and filesys_remove without acquiring it (their traces hold no
lock event at all), so the lock does not serialize create and remove. -/
theorem fs_lock_coverage (env : Env) (file : Option String) (name : String)
    (isize : Nat) (fd : Int) (buffer size : Nat) :
    lockedOk isFsCall false ((«open» env file).trace) = true
    ∧ lockedOk isFsCall false ((read env fd buffer size).trace) = true
    ∧ lockedOk isFsCall false ((write env fd buffer size).trace) = true
    ∧ (create env (some name) isize).trace = [Event.fsCreate]
    ∧ (remove env (some name)).trace = [Event.fsRemove] := by
  refine ⟨?_, ?_, ?_, rfl, rfl⟩
  · exact lockedOk_mono isFsCall isFsAccess isFsCall_le_isFsAccess _ _
      (open_wellLocked env file).1
  · exact lockedOk_mono isFsCall isFsAccess isFsCall_le_isFsAccess _ _
      (read_wellLocked env fd buffer size).1
  · exact lockedOk_mono isFsCall isFsAccess isFsCall_le_isFsAccess _ _
      (write_wellLocked env fd buffer size).1

/-- C5: every invocation of open, read and write returns to its caller, all
its calls into the filesystem subsystem happen while the lock is held (so
the lock is acquired before the first such call), and the lock state at the
end of the trace is free again, on every exit path. -/
theorem lock_free_at_boundaries (env : Env) (file : Option String) (fd : Int)
    (buffer size : Nat) :
    (lockedOk isFsAccess false ((«open» env file).trace) = true
      ∧ finalLock false ((«open» env file).trace) = false
      ∧ returnsOk («open» env file) = true)
    ∧ (lockedOk isFsAccess false ((read env fd buffer size).trace) = true
      ∧ finalLock false ((read env fd buffer size).trace) = false
      ∧ returnsOk (read env fd buffer size) = true)
    ∧ (lockedOk isFsAccess false ((write env fd buffer size).trace) = true
      ∧ finalLock false ((write env fd buffer size).trace) = false
      ∧ returnsOk (write env fd buffer size) = true) :=
  ⟨open_wellLocked env file, read_wellLocked env fd buffer size,
   write_wellLocked env fd buffer size⟩

/-- Counterexample to C6 as stated: on a descriptor with no handle in the
table, seek does not complete without crashing; it passes the absent handle
to file_seek, which dereferences it. -/
theorem seek_missing_fd_crashes :
    seek envD 5 0 = ⟨[Event.fdsGetFile 5], Except.error Fault.nullDeref⟩ := rfl

/-- C6 amended: on a descriptor that resolves to no handle, filesize returns
-1 and close completes without crashing, but seek and tell perform no null
check and hand the absent handle to file_seek and file_tell, which
dereference it. -/
theorem fd_missing_behaviour (env : Env) (fd : Int) (pos : Nat)
    (h : env.process_get_file fd = none) :
    filesize env fd = ⟨[Event.fdsGetFile fd], Except.ok (-1)⟩
    ∧ close fd = ⟨[Event.fdsCloseFile fd], Except.ok ()⟩
    ∧ seek env fd pos = ⟨[Event.fdsGetFile fd], Except.error Fault.nullDeref⟩
    ∧ tell env fd = ⟨[Event.fdsGetFile fd], Except.error Fault.nullDeref⟩ := by
  refine ⟨?_, rfl, ?_, ?_⟩ <;>
    simp [filesize, seek, tell, file_seek, file_tell, h]

/-- Witness for C6 amended, on the concrete empty descriptor table at fd 7. -/
theorem fd_missing_behaviour_witness :
    filesize envD 7 = ⟨[Event.fdsGetFile 7], Except.ok (-1)⟩
    ∧ close 7 = ⟨[Event.fdsCloseFile 7], Except.ok ()⟩
    ∧ seek envD 7 0 = ⟨[Event.fdsGetFile 7], Except.error Fault.nullDeref⟩
    ∧ tell envD 7 = ⟨[Event.fdsGetFile 7], Except.error Fault.nullDeref⟩ :=
  fd_missing_behaviour envD 7 0 rfl

/-- C7: read on fd 0 returns exactly size and stores size console input
bytes, one input_getc per byte, at buffer, buffer + 1, ..., buffer + size -
1, for every environment, so for every content of the descriptor table. -/
theorem read_stdin_spec (env : Env) (buffer size : Nat) :
    read env 0 buffer size
      = ⟨Event.lockAcquire :: Event.fdsGetFile 0 ::
          (((List.range size).flatMap fun j =>
              [Event.consoleGetc, Event.memStore (buffer + j) (env.input_byte j)])
            ++ [Event.lockRelease]),
         Except.ok (size : Int)⟩ :=
  read_zero_eq env buffer size

/-- C8: open yields -1 exactly when the name is null, the underlying
filesys_open fails, or the descriptor service reports the 64-entry table
exhausted; in every other case it yields the descriptor the service
allocated, which is nonnegative. -/
theorem open_spec (env : Env) (file : Option String) :
    ((«open» env file).out = Except.ok (-1) ↔
        (file = none
         ∨ (∃ name, file = some name ∧ env.filesys_open name = none)
         ∨ (∃ name f, file = some name ∧ env.filesys_open name = some f
              ∧ env.process_add_file f = 64)))
    ∧ (∀ name f, file = some name → env.filesys_open name = some f →
        env.process_add_file f ≠ 64 →
        («open» env file).out = Except.ok ((env.process_add_file f : Nat) : Int)
          ∧ (0 : Int) ≤ ((env.process_add_file f : Nat) : Int)) := by
  constructor
  · match file with
    | none => simp [«open»]
    | some name =>
      cases hfo : env.filesys_open name with
      | none => simp [«open», hfo]
      | some f =>
        by_cases hn : name = env.cur_name
        · subst hn
          by_cases h64 : env.process_add_file f = 64 <;>
            simp [«open», hfo, h64]
        · by_cases h64 : env.process_add_file f = 64 <;>
            simp [«open», hfo, hn, h64]
  · rintro name f rfl hfo h64
    refine ⟨?_, Int.natCast_nonneg _⟩
    by_cases hn : name = env.cur_name
    · subst hn
      simp [«open», hfo, h64]
    · simp [«open», hfo, hn, h64]

/-- Environment for the open witness: every name opens to handle 1 and the
descriptor service allocates descriptor 3. -/
def envW8 : Env :=
  { envD with
    filesys_open := fun _ => some ⟨1⟩
    process_add_file := fun _ => 3 }

/-- Witness for C8: with a filesystem that opens the name to a handle and a
descriptor service that allocates descriptor 3, open returns 3. -/
theorem open_spec_witness : («open» envW8 (some "f")).out = Except.ok 3 := by
  have h := (open_spec envW8 (some "f")).2 "f" ⟨1⟩ rfl rfl (by decide)
  simpa using h.1

/-- C9: on a syscall number outside the recognized set the dispatcher
terminates the calling thread unconditionally through bare thread_exit: no
exit status is recorded, no termination notice is emitted, and the run is
distinct from the exit(-1) path. -/
theorem unknown_syscall_kills_thread (env : Env) (mem : Nat → Nat) (esp : Nat)
    (hesp : validAddr esp) (hn : mem esp ∉ recognized) :
    syscall_handler env mem esp = ⟨[], Except.error Fault.threadExit⟩
    ∧ (∀ s : Int, Event.setExitStatus s ∉ (syscall_handler env mem esp).trace
        ∧ Event.printNotice s ∉ (syscall_handler env mem esp).trace)
    ∧ syscall_handler env mem esp ≠ (exit (-1) : Res (Option Int)) := by
  have hca := check_address_ok esp hesp
  simp only [recognized, SYS_HALT, SYS_EXIT, SYS_EXEC, SYS_WAIT, SYS_CREATE,
    SYS_REMOVE, SYS_OPEN, SYS_FILESIZE, SYS_READ, SYS_WRITE, SYS_SEEK, SYS_TELL,
    SYS_CLOSE, List.mem_cons, List.not_mem_nil, or_false] at hn
  push_neg at hn
  obtain ⟨h0, h1, h2, h3, h4, h5, h6, h7, h8, h9, h10, h11, h12⟩ := hn
  have hmain : syscall_handler env mem esp = ⟨[], Except.error Fault.threadExit⟩ := by
    simp [syscall_handler, hca, SYS_HALT, SYS_EXIT, SYS_EXEC, SYS_WAIT, SYS_CREATE,
      SYS_REMOVE, SYS_OPEN, SYS_FILESIZE, SYS_READ, SYS_WRITE, SYS_SEEK, SYS_TELL,
      SYS_CLOSE, h0, h1, h2, h3, h4, h5, h6, h7, h8, h9, h10, h11, h12, thread_exit]
  refine ⟨hmain, ?_, ?_⟩
  · intro s
    rw [hmain]
    simp
  · rw [hmain]
    simp [exit]

/-- Witness for C9: syscall number 13 on a valid stack terminates the thread
with an empty trace. -/
theorem unknown_syscall_kills_thread_witness :
    syscall_handler envD (fun _ => 13) 0x08048000
      = ⟨[], Except.error Fault.threadExit⟩ :=
  (unknown_syscall_kills_thread envD (fun _ => 13) 0x08048000 (by decide)
    (by decide)).1

/-- C10: dispatching exec, create, remove or open with a null name word, or
read or write with a null buffer word, terminates the process with exit
status -1 at the dispatcher-level check_address before the per-syscall
handler runs: the run consists of exactly the exit(-1) bookkeeping, with no
filesystem, descriptor-service or console event, so the in-handler null
branches are unreachable and their sentinel returns are never observed;
moreover every pointer word the validator accepts yields a non-null name
argument. -/
theorem null_arg_terminates (env : Env) (mem : Nat → Nat) (esp : Nat)
    (hesp : validAddr esp)
    (hslots : ∀ i, i < 3 → validAddr (esp + 4 + 4 * i))
    (hcase : ((mem esp = SYS_EXEC ∨ mem esp = SYS_CREATE ∨ mem esp = SYS_REMOVE
                ∨ mem esp = SYS_OPEN) ∧ mem (esp + 4) = 0)
           ∨ ((mem esp = SYS_READ ∨ mem esp = SYS_WRITE) ∧ mem (esp + 8) = 0)) :
    syscall_handler env mem esp
      = ⟨[Event.setExitStatus (-1), Event.printNotice (-1)],
         Except.error Fault.threadExit⟩
    ∧ (∀ a : Nat, USER_BASE ≤ a → ptrToStr env a = some (env.str_at a)) := by
  have hca := check_address_ok esp hesp
  have h1 : validAddr (esp + 4) := by
    have := hslots 0 (by omega)
    simpa using this
  have h2 : validAddr (esp + 8) := by
    have := hslots 1 (by omega)
    have e : esp + 4 + 4 * 1 = esp + 8 := by omega
    rwa [e] at this
  have h3 : validAddr (esp + 12) := by
    have := hslots 2 (by omega)
    have e : esp + 4 + 4 * 2 = esp + 12 := by omega
    rwa [e] at this
  have hnull0 : check_address 0
      = ⟨[Event.setExitStatus (-1), Event.printNotice (-1)],
         Except.error Fault.threadExit⟩ :=
    check_address_bad 0 (by decide)
  constructor
  · rcases hcase with ⟨hnum, hz⟩ | ⟨hnum, hz⟩
    · rcases hnum with hnum | hnum | hnum | hnum <;>
        simp [syscall_handler, hca, hnum, SYS_HALT, SYS_EXIT, SYS_EXEC, SYS_WAIT,
          SYS_CREATE, SYS_REMOVE, SYS_OPEN, SYS_FILESIZE, SYS_READ, SYS_WRITE,
          SYS_SEEK, SYS_TELL, SYS_CLOSE, get_argument_one mem esp h1,
          get_argument_two mem esp h1 h2, hz, hnull0]
    · rcases hnum with hnum | hnum <;>
        simp [syscall_handler, hca, hnum, SYS_HALT, SYS_EXIT, SYS_EXEC, SYS_WAIT,
          SYS_CREATE, SYS_REMOVE, SYS_OPEN, SYS_FILESIZE, SYS_READ, SYS_WRITE,
          SYS_SEEK, SYS_TELL, SYS_CLOSE, get_argument_three mem esp h1 h2 h3,
          hz, hnull0]
  · intro a ha
    have hz : a ≠ 0 := by
      have hpos : 0 < USER_BASE := by decide
      omega
    simp [ptrToStr, hz]

/-- Memory for the C10 witness: the open syscall number at the stack pointer
and zero words everywhere above it. -/
def memW : Nat → Nat := fun a => if a = 0x08048000 then 6 else 0

/-- Witness for C10: dispatching open with a null name word exits with -1. -/
theorem null_arg_terminates_witness :
    syscall_handler envD memW 0x08048000
      = ⟨[Event.setExitStatus (-1), Event.printNotice (-1)],
         Except.error Fault.threadExit⟩ :=
  (null_arg_terminates envD memW 0x08048000 (by decide)
    (by intro i hi; interval_cases i <;> decide)
    (by decide)).1

end Syscall
